import Mathlib

/-!
Verification of the rclone remote-control server front end
(`fs/rc/rcserver/rcserver.go`) against its specification.

The development shallowly embeds the request pipeline of the server:
parameter decoding (query string, form body, JSON body), registry
lookup, the auth gate, the `_async` execution selector, the
error/response writer, and the GET/HEAD path router with its
remote browser.  Go `map[string]interface{}` values are modelled as
association lists, Go `url.Values` as association lists of value
lists, and errors (`github.com/pkg/errors` wrapped error chains plus
the sentinel and typed errors of the `fs` and `rc` packages) as an
inductive type with an explicit `cause` projection mirroring
`errors.Cause`.
-/

namespace RCServer

/-- A decoded parameter value.  Query and form parameters are strings;
a JSON body may also carry booleans and numbers. -/
inductive Value where
  | str (s : String)
  | bool (b : Bool)
  | num (n : Int)
deriving DecidableEq, Repr

/-- `rc.Params`, Go `map[string]interface{}`, modelled as an
association list (keys unique by construction of all operations). -/
abbrev Params := List (String × Value)

/-- Go map read `p[k]`. -/
def getParam : Params → String → Option Value
  | [], _ => none
  | (k2, v) :: rest, k => if k2 = k then some v else getParam rest k

/-- Go map write `p[k] = v`: replace the binding if present, else append. -/
def setParam : Params → String → Value → Params
  | [], k, v => [(k, v)]
  | (k2, v2) :: rest, k, v =>
      if k2 = k then (k, v) :: rest else (k2, v2) :: setParam rest k v

/-- Go `delete(p, k)`. -/
def eraseParam : Params → String → Params
  | [], _ => []
  | (k2, v) :: rest, k =>
      if k2 = k then eraseParam rest k else (k2, v) :: eraseParam rest k

/-- The Go `%q` verb applied to the strings appearing in this code
(none of which need escaping): the string in double quotes. -/
def goQuote (s : String) : String := "\"" ++ s ++ "\""

/-- Errors flowing through the server: the `fs` package sentinel errors,
the `rc` package parameter errors, `errors.Wrap` chains from
`github.com/pkg/errors`, and plain errors from `errors.New`/`Errorf`. -/
inductive RcError where
  | errorDirNotFound
  | errorObjectNotFound
  | errParamNotFound (key : String)
  | errParamInvalid (msg : String)
  | generic (msg : String)
  | wrap (msg : String) (cause : RcError)
deriving DecidableEq, Repr

/-- `errors.Cause` from `github.com/pkg/errors`: repeatedly unwrap
`errors.Wrap` layers down to the root error. -/
def RcError.cause : RcError → RcError
  | .wrap _ e => e.cause
  | e => e

/-- `err.Error()`: the sentinel messages are the ones `fs` defines
(`errors.New("directory not found")`, `errors.New("object not found")`),
and a wrapped error renders as `msg: cause` per `github.com/pkg/errors`. -/
def RcError.message : RcError → String
  | .errorDirNotFound => "directory not found"
  | .errorObjectNotFound => "object not found"
  | .errParamNotFound k => "Did not find key " ++ goQuote k ++ " in input"
  | .errParamInvalid m => m
  | .generic m => m
  | .wrap m e => m ++ ": " ++ e.message

/-- Modelled from the spec (the `rc` package is not part of the sampled
source): classification of an error as an invalid-parameter error by its
underlying cause, per spec 4.4 rule (b). -/
def IsErrParamInvalid (e : RcError) : Bool :=
  match e.cause with
  | .errParamInvalid _ => true
  | _ => false

/-- Modelled from the spec (the `rc` package is not part of the sampled
source): classification of an error as a parameter-not-found error by its
underlying cause, per spec 4.4 rule (b). -/
def IsErrParamNotFound (e : RcError) : Bool :=
  match e.cause with
  | .errParamNotFound _ => true
  | _ => false

/-- The structured error body `{status, error, input, path}` written by
`writeError`.  `input` is `none` when the Go call site passes a nil map. -/
structure ErrorBody where
  status : Nat
  error : String
  input : Option Params
  path : String
deriving DecidableEq, Repr

/-- A response body.  `text` stands for the plain-text body written by
`http.Error` (`http.StatusText(status)`); `listing` for a rendered
directory page; `object` for the streamed content of an object; `empty` for a
body-less response. -/
inductive Body where
  | json (out : Params)
  | errorObj (e : ErrorBody)
  | text (s : String)
  | listing (dir : String) (entries : List (String × Bool))
  | object (content : String)
  | empty
deriving DecidableEq, Repr

/-- An HTTP response: status code and body. -/
structure Response where
  status : Nat
  body : Body
deriving DecidableEq, Repr

/-- `writeError` (rcserver.go lines 88-109): adjust the status for the
well-known causes, then write the structured `{status, error, input,
path}` body. -/
def writeError (path : String) (input : Option Params) (err : RcError)
    (status : Nat) : Response :=
  let errOrig := err.cause
  let status :=
    if errOrig = .errorDirNotFound ∨ errOrig = .errorObjectNotFound then 404
    else if IsErrParamInvalid err || IsErrParamNotFound err then 400
    else status
  { status := status
    body := .errorObj
      { status := status, error := err.message, input := input, path := path } }

/-- Go `url.Values`: a mapping from key to the list of values seen for
that key, modelled as an association list built in insertion order. -/
abbrev Values := List (String × List String)

/-- `m[k] = append(m[k], v)` on `url.Values`: append `v` to the group
for `k`, creating the group at the end if absent. -/
def addValue : Values → String → String → Values
  | [], k, v => [(k, [v])]
  | (k2, vs) :: rest, k, v =>
      if k2 = k then (k2, vs ++ [v]) :: rest
      else (k2, vs) :: addValue rest k v

/-- Read the value list of a key out of `url.Values` (empty when absent). -/
def lookupValues : Values → String → List String
  | [], _ => []
  | (k2, vs) :: rest, k => if k2 = k then vs else lookupValues rest k

/-- `url.ParseQuery` / `url.Values.Add` over a decoded list of `k=v`
pairs in source order: each pair is appended to the group of its key. -/
def parseQuery (pairs : List (String × String)) : Values :=
  pairs.foldl (fun acc p => addValue acc p.1 p.2) []

/-- Append one whole group of values under key `k` (the inner loop of
the `net/http` function `copyValues`). -/
def appendGroup (acc : Values) (k : String) (vs : List String) : Values :=
  vs.foldl (fun a v => addValue a k v) acc

/-- The `net/http` function `copyValues(dst, src)`:
`for k, vs := range src { dst[k] = append(dst[k], vs...) }`. -/
def copyValues (dst src : Values) : Values :=
  src.foldl (fun a g => appendGroup a g.1 g.2) dst

/-- One step of the loop of rcserver.go lines 150-154: `if len(vs) > 0
{ in[k] = vs[len(vs)-1] }`. -/
def lastValueStep (m : Params) (g : String × List String) : Params :=
  match g.2.getLast? with
  | some v => setParam m g.1 (.str v)
  | none => m

/-- rcserver.go lines 149-154: `for k, vs := range values { if len(vs) > 0
{ in[k] = vs[len(vs)-1] } }` — keep the last value per key. -/
def valuesToParams (values : Values) : Params :=
  values.foldl lastValueStep []

/-- All values carried for key `k` by a raw pair list, in order. -/
def multiGet : List (String × String) → String → List String
  | [], _ => []
  | (k2, v) :: rest, k =>
      if k2 = k then v :: multiGet rest k else multiGet rest k

/-- An incoming HTTP request.  The body is represented by the results of
its two possible decodings, each an `Except` to model parse failure:
`formBody` is the body parsed as `k=v` form pairs (read only when the
content type is exactly the form media type), `jsonBody` the body decoded
as a JSON object (read only when the content type is exactly
`application/json`).  `queryPairs` are the decoded URL query `k=v`
pairs in order. -/
structure Request where
  method : String
  urlPath : String
  queryPairs : List (String × String)
  contentType : String
  formBody : Except String (List (String × String))
  jsonBody : Except String (List (String × Value))

/-- A registered operation: `rc.Call` restricted to the fields this
server reads.  The context argument of the handler is elided (the embedding
is sequential). -/
structure Call where
  authRequired : Bool
  fn : Params → Except RcError Params

/-- A live storage backend as the remote browser uses it:
`fs.Fs.NewObject` resolving a sub-path to the content of an object, and
`list.DirSorted` listing a directory.  Per the `fs.Fs` contract
(documented on the `NewObject` of the sampled connector), a missing object
is reported as `errorObjectNotFound`. -/
structure Backend where
  newObject : String → Except RcError String
  dirSorted : String → Except RcError (List (String × Bool))

/-- The server with its configuration and external collaborators:
`noAuth`/`serve` from `rc.Options`, `usingAuth` for
`httplib.Server.UsingAuth()`, `registry` for `rc.Calls.Get`, `startJob`
for `rc.StartJob`, `cacheGet` for `cache.Get`, `filesHandler` for the
static file server (`some` exactly when a files directory is
configured), and `fileSections` for `config.FileSections()`. -/
structure Server where
  noAuth : Bool
  serve : Bool
  usingAuth : Bool
  registry : String → Option Call
  startJob : (Params → Except RcError Params) → Params → Except RcError Params
  cacheGet : String → Except RcError Backend
  filesHandler : Option (Request → Response)
  fileSections : List String

/-- rcserver.go lines 134-163: build the parameter map.  Seed from the
URL query; if the content type is exactly the form media type, call
`ParseForm` (whose `r.Form` holds the values of the body followed by the
values of the query, per `net/http`) and use that instead; then, if the
content type is exactly `application/json`, decode the body into the
map (decoded keys overriding).  A parse failure aborts with the 400
response `handlePost` writes. -/
def decodeParams (r : Request) (path : String) : Except Response Params :=
  match
    (if r.contentType = "application/x-www-form-urlencoded" then
      match r.formBody with
      | .error e =>
          .error (writeError path none
            (.wrap "failed to parse form/URL parameters" (.generic e)) 400)
      | .ok post =>
          .ok (copyValues (parseQuery post) (parseQuery r.queryPairs))
    else .ok (parseQuery r.queryPairs) : Except Response Values) with
  | .error resp => .error resp
  | .ok values =>
    let in0 := valuesToParams values
    if r.contentType = "application/json" then
      match r.jsonBody with
      | .error e =>
          .error (writeError path (some in0)
            (.wrap "failed to read input JSON" (.generic e)) 400)
      | .ok fields => .ok (fields.foldl (fun m kv => setParam m kv.1 kv.2) in0)
    else .ok in0

/-- Modelled from the spec (the `rc` package is not part of the sampled
source): `rc.Params.GetBool` reads the reserved boolean-valued key — a
missing key is a parameter-not-found error, a non-boolean value an
invalid-parameter error. -/
def getBoolParam (p : Params) (k : String) : Except RcError Bool :=
  match getParam p k with
  | none => .error (.errParamNotFound k)
  | some (.bool b) => .ok b
  | some _ =>
      .error (.errParamInvalid ("expecting bool value for key " ++ goQuote k))

/-- The error message of rcserver.go line 174 (auth gate rejection). -/
def authErrMsg (path : String) : String :=
  "authentication must be set up on the rc server to use " ++ goQuote path ++
    " or the --rc-no-auth flag must be in use"

/-- The error message of rcserver.go line 168 (registry miss). -/
def notFoundMsg (path : String) : String :=
  "could not find method " ++ goQuote path

/-- What the POST pipeline decides before any handler runs: either an
early response (decode failure, registry miss, auth rejection, bad
`_async` value) or the execution of a call with the final argument
map. -/
inductive PostOutcome where
  | abort (resp : Response)
  | run (isAsync : Bool) (call : Call) (args : Params)

/-- rcserver.go lines 134-193 up to the execution choice: decode the
parameters, look the path up in the registry (404 on a miss), apply the
auth gate (403), read the `_async` flag with `GetBool` (400 when present
but not a boolean; absent means synchronous), and delete `_async` from
the map before handing it on. -/
def dispatchPost (s : Server) (r : Request) (path : String) : PostOutcome :=
  match decodeParams r path with
  | .error resp => .abort resp
  | .ok inp =>
    match s.registry path with
    | none => .abort (writeError path (some inp) (.generic (notFoundMsg path)) 404)
    | some call =>
      if !s.noAuth && call.authRequired && !s.usingAuth then
        .abort (writeError path (some inp) (.generic (authErrMsg path)) 403)
      else
        match getBoolParam inp "_async" with
        | .error e =>
            if IsErrParamNotFound e then
              .run false call (eraseParam inp "_async")
            else .abort (writeError path (some inp) e 400)
        | .ok b => .run b call (eraseParam inp "_async")

/-- rcserver.go `handlePost`: run the dispatched call synchronously or
via `rc.StartJob`; a handler or submission error becomes a 500-class
`writeError` with the (already `_async`-stripped) input map, success a
200 JSON body.  (The Go nil-result-to-empty-map normalization is the
identity here, both being the empty list.) -/
def handlePost (s : Server) (r : Request) (path : String) : Response :=
  match dispatchPost s r path with
  | .abort resp => resp
  | .run isAsync call args =>
    match (if isAsync then s.startJob call.fn args else call.fn args) with
    | .error e => writeError path (some args) e 500
    | .ok out => { status := 200, body := .json out }

/-- Split a character list at its first `']'`, if any. -/
def splitFirstRBracket : List Char → Option (List Char × List Char)
  | [] => none
  | c :: cs =>
      if c = ']' then some ([], cs)
      else (splitFirstRBracket cs).map (fun p => (c :: p.1, p.2))

/-- The regular expression of rcserver.go line 259,
`^\[(.*?)\](.*)$` under Go RE2 semantics: the path must start with
`[`, the lazy first group captures up to the first `]`, the second
group the remainder; `.` does not match a newline, so a path carrying a
newline in either part never matches.  Result: `(fsName, remote)` =
`(match[1], match[2])`. -/
def fsMatch (path : String) : Option (String × String) :=
  match path.toList with
  | '[' :: rest =>
    match splitFirstRBracket rest with
    | some (f, r) =>
        if f.contains '\n' || r.contains '\n' then none
        else some (String.mk f, String.mk r)
    | none => none
  | _ => none

/-- `strings.TrimLeft(s, "/")`. -/
def trimLeadingSlashes (s : String) : String :=
  String.mk (s.toList.dropWhile (· = '/'))

/-- `strings.Trim(s, "/")`. -/
def trimSlashes (s : String) : String :=
  String.mk (((s.toList.dropWhile (· = '/')).reverse.dropWhile (· = '/')).reverse)

/-- `strings.HasSuffix(s, "/")`. -/
def hasTrailingSlash (s : String) : Bool :=
  s.toList.getLast? = some '/'

/-- Sorted copy of a string list (`sort.Strings`). -/
def insertSorted (x : String) : List String → List String
  | [] => [x]
  | y :: ys => if x ≤ y then x :: y :: ys else y :: insertSorted x ys

/-- `sort.Strings` as a pure function. -/
def sortStrings (l : List String) : List String :=
  l.foldr insertSorted []

/-- rcserver.go `serveRoot`: list every configured remote, sorted, as a
synthetic directory of `[remote:]` entries. -/
def serveRoot (s : Server) : Response :=
  { status := 200
    body := .listing ""
      ((sortStrings s.fileSections).map (fun remote => ("[" ++ remote ++ ":]", true))) }

/-- rcserver.go `serveRemote`: build the backend from the cache (500 on
failure), then either list the directory (empty path or trailing slash;
500 on failure) or resolve and stream the single object (500 passed to
`writeError` on failure).  The path is trimmed of slashes before the
backend call, as in the source. -/
def serveRemote (s : Server) (path fsName : String) : Response :=
  match s.cacheGet fsName with
  | .error e => writeError path none (.wrap "failed to make Fs" e) 500
  | .ok f =>
    if path = "" || hasTrailingSlash path then
      let path := trimSlashes path
      match f.dirSorted path with
      | .error e => writeError path none (.wrap "failed to list directory" e) 500
      | .ok entries => { status := 200, body := .listing path entries }
    else
      let path := trimSlashes path
      match f.newObject path with
      | .error e => writeError path none (.wrap "failed to find object" e) 500
      | .ok content => { status := 200, body := .object content }

/-- The four destinations of the GET/HEAD router. -/
inductive GetRoute where
  | remote (path fsName : String)
  | root
  | files
  | notFound
deriving DecidableEq, Repr

/-- The cases of the switch in rcserver.go `handleGet` that run after the
bracketed-remote case has failed to apply. -/
def routeGetRest (s : Server) (path : String) : GetRoute :=
  if path = "*" && s.serve then .root
  else if s.filesHandler.isSome then .files
  else if path = "" && s.serve then .root
  else .notFound

/-- The switch of rcserver.go `handleGet` (lines 261-283), evaluated in
source order: bracketed remote (with remote serving on), the `*`
wildcard, static files, the empty-path root listing, then 404. -/
def routeGet (s : Server) (path : String) : GetRoute :=
  match fsMatch path with
  | some (fsName, remote) =>
      if s.serve then .remote remote fsName else routeGetRest s path
  | none => routeGetRest s path

/-- The GET/HEAD dispatch table exactly as spec section 4.5 lists it:
rows evaluated in order, first match governs — (1) bracketed pattern
with remote serving on, (2) wildcard with remote serving on, (3) a
configured static-files directory, (4) empty path with remote serving
on, (5) 404. -/
def routerSpecTable (s : Server) (path : String) : GetRoute :=
  match (if s.serve then fsMatch path else none) with
  | some (fsName, remote) => .remote remote fsName
  | none =>
    if s.serve && path = "*" then .root
    else if s.filesHandler.isSome then .files
    else if s.serve && path = "" then .root
    else .notFound

/-- rcserver.go `handleGet`: route, then serve.  The unmatched case is
`http.Error(w, http.StatusText(http.StatusNotFound), http.StatusNotFound)`,
a plain-text 404. -/
def handleGet (s : Server) (r : Request) (path : String) : Response :=
  match routeGet s path with
  | .remote remote fsName => serveRemote s remote fsName
  | .root => serveRoot s
  | .files =>
    match s.filesHandler with
    | some h => h r
    | none => { status := 404, body := .text "Not Found" }
  | .notFound => { status := 404, body := .text "Not Found" }

/-- rcserver.go `handler` (lines 112-132): strip leading slashes from
the URL path and dispatch on the method — POST, OPTIONS (200, empty
body), GET/HEAD, otherwise a 405 `writeError` naming the method.
The unconditional CORS headers are not modelled. -/
def handler (s : Server) (r : Request) : Response :=
  let path := trimLeadingSlashes r.urlPath
  if r.method = "POST" then handlePost s r path
  else if r.method = "OPTIONS" then { status := 200, body := .empty }
  else if r.method = "GET" || r.method = "HEAD" then handleGet s r path
  else
    writeError path none
      (.generic ("method " ++ goQuote r.method ++ " not allowed")) 405

/-! Concrete instances used to evaluate the pipeline on specific
requests. -/

/-- An operation that needs no authorisation and echoes its input. -/
def echoCall : Call := { authRequired := false, fn := fun p => .ok p }

/-- An operation whose descriptor requires authorisation. -/
def authCall : Call := { authRequired := true, fn := fun p => .ok p }

/-- A registry with `echo` (no auth) and `secure` (auth required). -/
def registryEx : String → Option Call := fun p =>
  if p = "echo" then some echoCall
  else if p = "secure" then some authCall
  else none

/-- A backend holding no objects: `NewObject` reports the sentinel
object-not-found error, as the `fs.Fs` contract prescribes. -/
def backendEx : Backend :=
  { newObject := fun _ => .error .errorObjectNotFound
    dirSorted := fun _ => .ok [] }

/-- A server with remote serving enabled, no static files, no auth
mechanism configured and the no-auth override unset; the backend cache
knows the single remote `myremote`. -/
def srvEx : Server :=
  { noAuth := false
    serve := true
    usingAuth := false
    registry := registryEx
    startJob := fun f p => f p
    cacheGet := fun n =>
      if n = "myremote" then .ok backendEx
      else .error (.generic "didnt find section in config file")
    filesHandler := none
    fileSections := ["myremote"] }

/-- `srvEx` with remote serving disabled. -/
def srvNoServe : Server := { srvEx with serve := false }

/-- GET for a bracketed remote path whose object does not exist. -/
def reqGetMissing : Request :=
  { method := "GET", urlPath := "/[myremote]file.txt", queryPairs := []
    contentType := "", formBody := .ok [], jsonBody := .ok [] }

/-- GET for a path matching no route. -/
def reqGetNosuch : Request := { reqGetMissing with urlPath := "/nosuch" }

/-- POST to an unregistered path. -/
def reqPostNosuch : Request := { reqGetNosuch with method := "POST" }

/-- Form-encoded POST whose body and query both set key `a`. -/
def reqFormOverride : Request :=
  { method := "POST", urlPath := "/echo", queryPairs := [("a", "q")]
    contentType := "application/x-www-form-urlencoded"
    formBody := .ok [("a", "b")], jsonBody := .ok [] }

/-- POST to the auth-requiring operation with no credentials anywhere. -/
def reqAuth : Request :=
  { method := "POST", urlPath := "/secure", queryPairs := []
    contentType := "", formBody := .ok [], jsonBody := .ok [] }

/-- JSON POST selecting asynchronous execution alongside an ordinary
parameter. -/
def reqAsync : Request :=
  { method := "POST", urlPath := "/echo", queryPairs := [("x", "1")]
    contentType := "application/json", formBody := .ok []
    jsonBody := .ok [("_async", .bool true), ("k2", .str "v")] }

/-- POST carrying `_async` as a (non-boolean) query string value. -/
def reqBadAsync : Request :=
  { method := "POST", urlPath := "/echo", queryPairs := [("_async", "maybe")]
    contentType := "", formBody := .ok [], jsonBody := .ok [] }

/-- A request with a disallowed method. -/
def reqPut : Request :=
  { method := "PUT", urlPath := "/echo", queryPairs := []
    contentType := "", formBody := .ok [], jsonBody := .ok [] }

/-- POST whose content type carries a parameter, so it is not exactly
either recognised media type; its body would change the map if read. -/
def reqOtherCT : Request :=
  { method := "POST", urlPath := "/echo", queryPairs := [("a", "1")]
    contentType := "application/json; charset=utf-8"
    formBody := .ok [("b", "2")], jsonBody := .ok [("c", .str "3")] }

/-! Helper lemmas about the parameter map. -/

theorem getParam_erase_self (p : Params) (k : String) :
    getParam (eraseParam p k) k = none := by
  induction p with
  | nil => rfl
  | cons hd tl ih =>
    obtain ⟨k2, v⟩ := hd
    by_cases h : k2 = k <;> simp [eraseParam, h, getParam, ih]

theorem getParam_erase_other (p : Params) (k k2 : String) (h : k2 ≠ k) :
    getParam (eraseParam p k) k2 = getParam p k2 := by
  induction p with
  | nil => rfl
  | cons hd tl ih =>
    obtain ⟨k3, v⟩ := hd
    by_cases h3 : k3 = k
    · subst h3
      simp [eraseParam, getParam, Ne.symm h, ih]
    · by_cases h32 : k3 = k2
      · subst h32
        simp [eraseParam, getParam, h3]
      · simp [eraseParam, getParam, h3, h32, ih]

theorem getParam_set_self (p : Params) (k : String) (v : Value) :
    getParam (setParam p k v) k = some v := by
  induction p with
  | nil => simp [setParam, getParam]
  | cons hd tl ih =>
    obtain ⟨k2, v2⟩ := hd
    by_cases h : k2 = k <;> simp [setParam, h, getParam, ih]

theorem getParam_set_other (p : Params) (k k2 : String) (v : Value) (h : k2 ≠ k) :
    getParam (setParam p k v) k2 = getParam p k2 := by
  induction p with
  | nil => simp [setParam, getParam, Ne.symm h]
  | cons hd tl ih =>
    obtain ⟨k3, v3⟩ := hd
    by_cases h3 : k3 = k
    · subst h3
      simp [setParam, getParam, Ne.symm h]
    · by_cases h32 : k3 = k2
      · subst h32
        simp [setParam, getParam, h3]
      · simp [setParam, getParam, h3, h32, ih]

/-- The status a `writeError` response can carry is one of: the
remapped 404, the remapped 400, or the status its caller supplied. -/
theorem writeError_status_cases (path : String) (input : Option Params)
    (err : RcError) (status : Nat) :
    (writeError path input err status).status = 404 ∨
    (writeError path input err status).status = 400 ∨
    (writeError path input err status).status = status := by
  unfold writeError
  by_cases h1 : err.cause = .errorDirNotFound ∨ err.cause = .errorObjectNotFound
  · simp [h1]
  · by_cases h2 : (IsErrParamInvalid err || IsErrParamNotFound err) = true
    · simp [h1, h2]
    · simp [h1, h2]

/-- **C1.** For every failed request reported through `writeError`, the
response status follows this precedence, first match wins: a cause of
directory-not-found or object-not-found gives 404; otherwise an
invalid-parameter or parameter-not-found error gives 400; otherwise the
status supplied by the caller is used unchanged. -/
theorem writeError_status_precedence (path : String) (input : Option Params)
    (err : RcError) (status : Nat) :
    (err.cause = .errorDirNotFound ∨ err.cause = .errorObjectNotFound →
      (writeError path input err status).status = 404) ∧
    (¬(err.cause = .errorDirNotFound ∨ err.cause = .errorObjectNotFound) →
      (IsErrParamInvalid err || IsErrParamNotFound err) = true →
      (writeError path input err status).status = 400) ∧
    (¬(err.cause = .errorDirNotFound ∨ err.cause = .errorObjectNotFound) →
      (IsErrParamInvalid err || IsErrParamNotFound err) = false →
      (writeError path input err status).status = status) := by
  refine ⟨fun h => ?_, fun h hp => ?_, fun h hp => ?_⟩
  · simp [writeError, h]
  · simp [writeError, h, hp]
  · simp [writeError, h, hp]

/-- Witness for C1: a plain handler error keeps the caller status 500, a
wrapped not-found cause is remapped to 404, a parameter error to 400. -/
theorem writeError_status_precedence_witness :
    (writeError "p" none (.generic "boom") 500).status = 500 ∧
    (writeError "p" none (.wrap "failed" .errorObjectNotFound) 500).status = 404 ∧
    (writeError "p" none (.errParamInvalid "bad") 500).status = 400 := by
  refine ⟨?_, ?_, ?_⟩
  · exact (writeError_status_precedence "p" none (.generic "boom") 500).2.2
      (by decide) (by decide)
  · exact (writeError_status_precedence "p" none
      (.wrap "failed" .errorObjectNotFound) 500).1 (by decide)
  · exact (writeError_status_precedence "p" none (.errParamInvalid "bad") 500).2.1
      (by decide) (by decide)

/-- **C7.** For every GET or HEAD request, the router evaluates exactly
the dispatch order of the table in the specification and the first matching
case governs: bracketed remote with serving enabled, then the `*`
wildcard with serving enabled, then a configured static-files
directory, then the empty path with serving enabled, then 404. -/
theorem get_dispatch_table (s : Server) (path : String) :
    routeGet s path = routerSpecTable s path := by
  unfold routeGet routerSpecTable
  cases h : fsMatch path with
  | none => cases hs : s.serve <;> simp [routeGetRest, hs, Bool.and_comm]
  | some p =>
    obtain ⟨f, r⟩ := p
    cases hs : s.serve <;> simp [routeGetRest, hs, Bool.and_comm]

/-- **C8.** For every request whose method is not GET, HEAD, POST or
OPTIONS, the response has status 405 and a structured error body whose
message names the disallowed method. -/
theorem method_not_allowed_405 (s : Server) (r : Request)
    (h1 : r.method ≠ "GET") (h2 : r.method ≠ "HEAD")
    (h3 : r.method ≠ "POST") (h4 : r.method ≠ "OPTIONS") :
    handler s r =
      { status := 405
        body := .errorObj
          { status := 405
            error := "method " ++ goQuote r.method ++ " not allowed"
            input := none
            path := trimLeadingSlashes r.urlPath } } := by
  unfold handler
  simp [h1, h2, h3, h4, writeError, RcError.cause, IsErrParamInvalid,
    IsErrParamNotFound, RcError.message]

/-- Witness for C8: a PUT request receives the 405 structured body
naming PUT. -/
theorem method_not_allowed_405_witness :
    handler srvEx reqPut =
      { status := 405
        body := .errorObj
          { status := 405
            error := "method \"PUT\" not allowed"
            input := none
            path := "echo" } } := by
  have h := method_not_allowed_405 srvEx reqPut
    (by decide) (by decide) (by decide) (by decide)
  simpa using h

/-- Counterexample for C2: against a server with remote serving
enabled, a GET for `/[myremote]file.txt` whose backend reports the
object missing is answered with status 404 — not a 500-class status as
the claim states — because the error writer remaps the
object-not-found cause. -/
theorem missing_object_status_counterexample :
    (handler srvEx reqGetMissing).status = 404 ∧
    ¬(500 ≤ (handler srvEx reqGetMissing).status) := by
  decide

/-- **C2 (amended).** For every GET of a bracketed non-directory
sub-path, the Remote Browser layer itself does not special-case the
not-found condition: every resolution failure is wrapped and handed to
the error writer with caller status 500.  The final response status is
then 404 exactly when the underlying cause of the failure is the
object-not-found or directory-not-found sentinel, and the caller status 500
otherwise (no parameter errors arise here, the cause being a backend
resolution error). -/
theorem serveRemote_failure_status (s : Server) (sub fsName : String)
    (b : Backend) (e : RcError)
    (h1 : sub ≠ "") (h2 : hasTrailingSlash sub = false)
    (hc : s.cacheGet fsName = .ok b)
    (ho : b.newObject (trimSlashes sub) = .error e) :
    serveRemote s sub fsName =
      writeError (trimSlashes sub) none (.wrap "failed to find object" e) 500
    ∧ ((serveRemote s sub fsName).status = 404 ↔
        e.cause = .errorDirNotFound ∨ e.cause = .errorObjectNotFound) := by
  have hres : serveRemote s sub fsName =
      writeError (trimSlashes sub) none (.wrap "failed to find object" e) 500 := by
    unfold serveRemote
    rw [hc]
    simp only [h1, h2, Bool.or_false, if_neg]
    rw [ho]
    simp
  refine ⟨hres, ?_⟩
  rw [hres]
  unfold writeError
  by_cases hcause : (RcError.wrap "failed to find object" e).cause =
      .errorDirNotFound ∨ (RcError.wrap "failed to find object" e).cause =
      .errorObjectNotFound
  · have : e.cause = .errorDirNotFound ∨ e.cause = .errorObjectNotFound := hcause
    simp [hcause, this]
  · have hni : ¬(e.cause = .errorDirNotFound ∨ e.cause = .errorObjectNotFound) :=
      hcause
    by_cases hp : (IsErrParamInvalid (.wrap "failed to find object" e) ||
        IsErrParamNotFound (.wrap "failed to find object" e)) = true
    · simp [hcause, hp, hni]
    · simp [hcause, hp, hni]

/-- Witness for C2 (amended): the concrete missing object of the
counterexample instantiates the amended statement, its cause being the
object-not-found sentinel. -/
theorem serveRemote_failure_status_witness :
    serveRemote srvEx "file.txt" "myremote" =
      writeError "file.txt" none
        (.wrap "failed to find object" .errorObjectNotFound) 500 ∧
    (serveRemote srvEx "file.txt" "myremote").status = 404 := by
  have h := serveRemote_failure_status srvEx "file.txt" "myremote" backendEx
    .errorObjectNotFound (by decide) (by decide) rfl rfl
  exact ⟨h.1, h.2.mpr (Or.inr rfl)⟩

/-- Counterexample for C5: a GET for a path with no registered
operation that matches no GET route is answered 404 with the bare
plain-text body `http.Error` writes, not a structured error object
carrying the path. -/
theorem get_unmatched_plain_404_counterexample :
    (handler srvNoServe reqGetNosuch).status = 404 ∧
    (handler srvNoServe reqGetNosuch).body = .text "Not Found" ∧
    ¬∃ eb, (handler srvNoServe reqGetNosuch).body = .errorObj eb ∧
      eb.path = "nosuch" := by
  refine ⟨by decide, by decide, ?_⟩
  rintro ⟨eb, heb, -⟩
  have hbody : (handler srvNoServe reqGetNosuch).body = .text "Not Found" := by
    decide
  rw [hbody] at heb
  exact Body.noConfusion heb

/-- **C5 (amended).** Every POST to a path with no registered operation
is answered with status exactly 404 and a structured error body whose
`path` field equals the requested path; a GET or HEAD matching no route
also receives 404, but as a bare plain-text response without a
structured body. -/
theorem unregistered_post_404 :
    (∀ (s : Server) (r : Request) (path : String) (inp : Params),
      decodeParams r path = .ok inp → s.registry path = none →
      handlePost s r path =
        { status := 404
          body := .errorObj
            { status := 404, error := notFoundMsg path
              input := some inp, path := path } })
    ∧ (∀ (s : Server) (r : Request) (path : String),
        routeGet s path = .notFound →
        handleGet s r path = { status := 404, body := .text "Not Found" }) := by
  constructor
  · intro s r path inp hdec hreg
    unfold handlePost dispatchPost
    rw [hdec, hreg]
    simp [writeError, RcError.cause, IsErrParamInvalid, IsErrParamNotFound,
      RcError.message]
  · intro s r path hroute
    unfold handleGet
    rw [hroute]

/-- Witness for C5 (amended): a POST to the unregistered path `nosuch`
receives the structured 404 body carrying that path. -/
theorem unregistered_post_404_witness :
    handlePost srvEx reqPostNosuch "nosuch" =
      { status := 404
        body := .errorObj
          { status := 404, error := notFoundMsg "nosuch"
            input := some [], path := "nosuch" } } :=
  unregistered_post_404.1 srvEx reqPostNosuch "nosuch" [] rfl rfl

/-- **C4.** For every POST request that reaches the auth gate (its
parameters decoded, its path registered), the request is rejected with
a 403 authorization error if and only if the descriptor of the operation
requires authorization, the no-auth override is not set, and no auth
mechanism is configured; in every other combination the dispatch
proceeds past the gate (no outcome of the pipeline carries status
403). -/
theorem auth_gate_iff (s : Server) (r : Request) (path : String)
    (inp : Params) (call : Call)
    (hdec : decodeParams r path = .ok inp)
    (hcall : s.registry path = some call) :
    (∃ resp, dispatchPost s r path = .abort resp ∧ resp.status = 403) ↔
      (call.authRequired = true ∧ s.noAuth = false ∧ s.usingAuth = false) := by
  by_cases hA : (!s.noAuth && call.authRequired && !s.usingAuth) = true
  · have hdisp : dispatchPost s r path =
        .abort (writeError path (some inp) (.generic (authErrMsg path)) 403) := by
      unfold dispatchPost
      simp only [hdec, hcall]
      rw [if_pos hA]
    obtain ⟨hna, har, hua⟩ : s.noAuth = false ∧ call.authRequired = true ∧
        s.usingAuth = false := by
      simp only [Bool.and_eq_true, Bool.not_eq_true'] at hA
      exact ⟨hA.1.1, hA.1.2, hA.2⟩
    constructor
    · intro _
      exact ⟨har, hna, hua⟩
    · intro _
      refine ⟨_, hdisp, ?_⟩
      simp [writeError, RcError.cause, IsErrParamInvalid, IsErrParamNotFound]
  · constructor
    · rintro ⟨resp, habort, hstatus⟩
      exfalso
      rcases hgb : getBoolParam inp "_async" with e | bb
      · by_cases hnf : IsErrParamNotFound e = true
        · have hdisp : dispatchPost s r path =
              .run false call (eraseParam inp "_async") := by
            unfold dispatchPost
            simp only [hdec, hcall, hgb]
            rw [if_neg hA, if_pos hnf]
          rw [hdisp] at habort
          exact PostOutcome.noConfusion habort
        · have hdisp : dispatchPost s r path =
              .abort (writeError path (some inp) e 400) := by
            unfold dispatchPost
            simp only [hdec, hcall, hgb]
            rw [if_neg hA, if_neg hnf]
          rw [hdisp] at habort
          injection habort with hr
          rcases writeError_status_cases path (some inp) e 400 with h4 | h4 | h4 <;>
            · rw [← hr, h4] at hstatus
              exact absurd hstatus (by decide)
      · have hdisp : dispatchPost s r path =
            .run bb call (eraseParam inp "_async") := by
          unfold dispatchPost
          simp only [hdec, hcall, hgb]
          rw [if_neg hA]
        rw [hdisp] at habort
        exact PostOutcome.noConfusion habort
    · intro h
      obtain ⟨har, hna, hua⟩ := h
      rw [hna, har, hua] at hA
      exact absurd rfl hA

/-- Witness for C4: the auth-requiring operation `secure` on a server
with no auth mechanism and no override is rejected with a 403
outcome. -/
theorem auth_gate_iff_witness :
    ∃ resp, dispatchPost srvEx reqAuth "secure" = .abort resp ∧
      resp.status = 403 :=
  (auth_gate_iff srvEx reqAuth "secure" [] authCall rfl rfl).mpr
    ⟨rfl, rfl, rfl⟩

/-- **C6.** For every POST request that reaches handler execution, the
argument map handed to the operation (synchronously) or to the job
scheduler (asynchronously) is the decoded map with the reserved
`_async` key deleted: the reserved key is never visible downstream, and
every other decoded parameter is passed through unchanged. -/
theorem async_key_stripped (s : Server) (r : Request) (path : String)
    (inp : Params) (b : Bool) (call : Call) (args : Params)
    (hdec : decodeParams r path = .ok inp)
    (hrun : dispatchPost s r path = .run b call args) :
    args = eraseParam inp "_async" ∧
    getParam args "_async" = none ∧
    ∀ k, k ≠ "_async" → getParam args k = getParam inp k := by
  have hargs : args = eraseParam inp "_async" := by
    unfold dispatchPost at hrun
    rcases hreg : s.registry path with _ | call2 <;>
      simp only [hdec, hreg] at hrun
    · exact PostOutcome.noConfusion hrun
    · by_cases hA : (!s.noAuth && call2.authRequired && !s.usingAuth) = true
      · rw [if_pos hA] at hrun
        exact PostOutcome.noConfusion hrun
      · rw [if_neg hA] at hrun
        rcases hgb : getBoolParam inp "_async" with e | bb <;>
          simp only [hgb] at hrun
        · by_cases hnf : IsErrParamNotFound e = true
          · rw [if_pos hnf] at hrun
            injection hrun with hb hc ha
            exact ha.symm
          · rw [if_neg hnf] at hrun
            exact PostOutcome.noConfusion hrun
        · injection hrun with hb hc ha
          exact ha.symm
  subst hargs
  exact ⟨rfl, getParam_erase_self inp "_async",
    fun k hk => getParam_erase_other inp "_async" k hk⟩

/-- Witness for C6: the argument map of the asynchronous echo request has
`_async` stripped and its ordinary parameter `k2` untouched. -/
theorem async_key_stripped_witness :
    getParam (eraseParam
        [("x", Value.str "1"), ("_async", Value.bool true), ("k2", Value.str "v")]
        "_async") "_async" = none ∧
    getParam (eraseParam
        [("x", Value.str "1"), ("_async", Value.bool true), ("k2", Value.str "v")]
        "_async") "k2" =
      getParam
        [("x", Value.str "1"), ("_async", Value.bool true), ("k2", Value.str "v")]
        "k2" := by
  have h := async_key_stripped srvEx reqAsync "echo"
    [("x", Value.str "1"), ("_async", Value.bool true), ("k2", Value.str "v")]
    true echoCall
    (eraseParam
      [("x", Value.str "1"), ("_async", Value.bool true), ("k2", Value.str "v")]
      "_async")
    rfl rfl
  exact ⟨h.2.1, h.2.2 "k2" (by decide)⟩

/-- **C9.** For every POST request to a registered path that passes the
auth gate, if the decoded map carries `_async` with a value that is not
a boolean, the server responds with a 400 error and the operation
handler is never invoked, neither inline nor via the job scheduler. -/
theorem invalid_async_rejected_400 (s : Server) (r : Request) (path : String)
    (inp : Params) (call : Call) (v : Value)
    (hdec : decodeParams r path = .ok inp)
    (hcall : s.registry path = some call)
    (hauth : (!s.noAuth && call.authRequired && !s.usingAuth) = false)
    (hval : getParam inp "_async" = some v)
    (hv : ∀ b, v ≠ .bool b) :
    (handlePost s r path).status = 400 ∧
    ∀ (b : Bool) (c : Call) (a : Params), dispatchPost s r path ≠ .run b c a := by
  have hgb : ∃ msg, getBoolParam inp "_async" =
      .error (.errParamInvalid msg) := by
    unfold getBoolParam
    rw [hval]
    cases v with
    | str s2 => exact ⟨_, rfl⟩
    | bool b2 => exact absurd rfl (hv b2)
    | num n => exact ⟨_, rfl⟩
  obtain ⟨msg, hgb⟩ := hgb
  have hdisp : dispatchPost s r path =
      .abort (writeError path (some inp) (.errParamInvalid msg) 400) := by
    unfold dispatchPost
    simp only [hdec, hcall, hgb]
    rw [if_neg (by simp [hauth]),
      if_neg (by simp [IsErrParamNotFound, RcError.cause])]
  constructor
  · unfold handlePost
    rw [hdisp]
    simp [writeError, RcError.cause, IsErrParamInvalid]
  · intro b c a h
    rw [hdisp] at h
    exact PostOutcome.noConfusion h

/-- Witness for C9: `_async=maybe` passed as a query string value is a
non-boolean, so the echo operation is never run and the response status
is 400. -/
theorem invalid_async_rejected_400_witness :
    (handlePost srvEx reqBadAsync "echo").status = 400 ∧
    ∀ (b : Bool) (c : Call) (a : Params),
      dispatchPost srvEx reqBadAsync "echo" ≠ .run b c a :=
  invalid_async_rejected_400 srvEx reqBadAsync "echo"
    [("_async", Value.str "maybe")] echoCall (Value.str "maybe")
    rfl rfl rfl rfl (fun _b h => Value.noConfusion h)

/-- **C10.** For every POST request whose Content-Type header is not
exactly `application/x-www-form-urlencoded` and not exactly
`application/json` — content-type selection is exact string equality,
with no MIME media-type parsing — the request body is ignored entirely:
the decoded parameter map is built from the URL query parameters alone,
and replacing either body decoding changes nothing. -/
theorem exact_content_type_query_only (r : Request) (path : String)
    (h1 : r.contentType ≠ "application/x-www-form-urlencoded")
    (h2 : r.contentType ≠ "application/json") :
    decodeParams r path = .ok (valuesToParams (parseQuery r.queryPairs)) ∧
    ∀ fb jb, decodeParams { r with formBody := fb, jsonBody := jb } path =
      decodeParams r path := by
  have hq : ∀ fb jb, decodeParams { r with formBody := fb, jsonBody := jb } path =
      .ok (valuesToParams (parseQuery r.queryPairs)) := by
    intro fb jb
    unfold decodeParams
    simp [h1, h2]
  have hr : decodeParams r path = .ok (valuesToParams (parseQuery r.queryPairs)) := by
    have := hq r.formBody r.jsonBody
    simpa using this
  exact ⟨hr, fun fb jb => (hq fb jb).trans hr.symm⟩

/-- Witness for C10: a JSON content type carrying a charset parameter
matches neither exact string, so the form and JSON bodies are both
ignored and only the query parameter `a` survives. -/
theorem exact_content_type_query_only_witness :
    decodeParams reqOtherCT "echo" = .ok [("a", Value.str "1")] :=
  (exact_content_type_query_only reqOtherCT "echo"
    (by decide) (by decide)).1

/-! Lemmas tracking `url.Values` construction, needed to characterise
the form/query merge. -/

theorem lookup_addValue (l : Values) (k v k2 : String) :
    lookupValues (addValue l k v) k2 =
      if k2 = k then lookupValues l k ++ [v] else lookupValues l k2 := by
  induction l with
  | nil =>
    by_cases h : k2 = k
    · subst h
      simp [addValue, lookupValues]
    · simp [addValue, lookupValues, h, Ne.symm h]
  | cons hd tl ih =>
    obtain ⟨k3, vs⟩ := hd
    by_cases h3 : k3 = k
    · subst h3
      by_cases h2 : k2 = k3
      · subst h2
        simp [addValue, lookupValues]
      · simp [addValue, lookupValues, h2, Ne.symm h2]
    · by_cases h2 : k2 = k
      · subst h2
        simp [addValue, lookupValues, h3, ih]
      · by_cases h32 : k3 = k2
        · subst h32
          simp [addValue, lookupValues, h3, ih, h2]
        · simp [addValue, lookupValues, h3, h32, ih, h2]

theorem lookup_not_mem (l : Values) (k : String)
    (h : k ∉ l.map Prod.fst) : lookupValues l k = [] := by
  induction l with
  | nil => rfl
  | cons hd tl ih =>
    obtain ⟨k3, vs⟩ := hd
    simp only [List.map_cons, List.mem_cons] at h
    push_neg at h
    simp only [lookupValues]
    rw [if_neg (Ne.symm h.1)]
    exact ih h.2

theorem keys_addValue (l : Values) (k v : String) :
    (addValue l k v).map Prod.fst =
      if k ∈ l.map Prod.fst then l.map Prod.fst else l.map Prod.fst ++ [k] := by
  induction l with
  | nil => simp [addValue]
  | cons hd tl ih =>
    obtain ⟨k3, vs⟩ := hd
    by_cases h3 : k3 = k
    · subst h3
      simp [addValue]
    · simp only [addValue, if_neg h3, List.map_cons, ih, List.mem_cons]
      by_cases hm : k ∈ tl.map Prod.fst
      · simp [hm, Ne.symm h3]
      · simp [hm, Ne.symm h3]

theorem nodup_addValue (l : Values) (k v : String)
    (h : (l.map Prod.fst).Nodup) : ((addValue l k v).map Prod.fst).Nodup := by
  rw [keys_addValue]
  by_cases hm : k ∈ l.map Prod.fst
  · simpa [hm] using h
  · simp only [hm, if_false]
    simp [List.nodup_append, h, List.disjoint_singleton, hm]

theorem lookup_appendGroup (a : Values) (k : String) (vs : List String)
    (k2 : String) :
    lookupValues (appendGroup a k vs) k2 =
      if k2 = k then lookupValues a k ++ vs else lookupValues a k2 := by
  induction vs generalizing a with
  | nil =>
    by_cases h : k2 = k
    · subst h
      simp [appendGroup]
    · simp [appendGroup, h]
  | cons v vs ih =>
    have hstep : appendGroup a k (v :: vs) = appendGroup (addValue a k v) k vs := by
      simp [appendGroup]
    rw [hstep, ih]
    by_cases h : k2 = k
    · subst h
      simp [lookup_addValue]
    · simp [h, lookup_addValue]

theorem nodup_appendGroup (a : Values) (k : String) (vs : List String)
    (h : (a.map Prod.fst).Nodup) :
    ((appendGroup a k vs).map Prod.fst).Nodup := by
  induction vs generalizing a with
  | nil => simpa [appendGroup] using h
  | cons v vs ih =>
    have hstep : appendGroup a k (v :: vs) = appendGroup (addValue a k v) k vs := by
      simp [appendGroup]
    rw [hstep]
    exact ih _ (nodup_addValue a k v h)

theorem lookup_copyValues (dst src : Values) (k : String)
    (h : (src.map Prod.fst).Nodup) :
    lookupValues (copyValues dst src) k =
      lookupValues dst k ++ lookupValues src k := by
  induction src generalizing dst with
  | nil => simp [copyValues, lookupValues]
  | cons hd rest ih =>
    obtain ⟨k0, vs⟩ := hd
    rw [List.map_cons, List.nodup_cons] at h
    obtain ⟨hk0, hrest⟩ := h
    have hstep : copyValues dst ((k0, vs) :: rest) =
        copyValues (appendGroup dst k0 vs) rest := by
      simp [copyValues]
    rw [hstep, ih _ hrest, lookup_appendGroup]
    by_cases hk : k = k0
    · subst hk
      rw [lookup_not_mem rest k hk0]
      simp [lookupValues]
    · simp [lookupValues, hk, Ne.symm hk]

theorem nodup_copyValues (dst src : Values)
    (h : (dst.map Prod.fst).Nodup) :
    ((copyValues dst src).map Prod.fst).Nodup := by
  induction src generalizing dst with
  | nil => simpa [copyValues] using h
  | cons hd rest ih =>
    obtain ⟨k0, vs⟩ := hd
    have hstep : copyValues dst ((k0, vs) :: rest) =
        copyValues (appendGroup dst k0 vs) rest := by
      simp [copyValues]
    rw [hstep]
    exact ih _ (nodup_appendGroup dst k0 vs h)

theorem lookup_parseQuery_go (pairs : List (String × String)) (acc : Values)
    (k : String) :
    lookupValues (pairs.foldl (fun a p => addValue a p.1 p.2) acc) k =
      lookupValues acc k ++ multiGet pairs k := by
  induction pairs generalizing acc with
  | nil => simp [multiGet]
  | cons hd rest ih =>
    obtain ⟨k0, v⟩ := hd
    simp only [List.foldl_cons, ih, lookup_addValue, multiGet]
    by_cases h : k = k0
    · subst h
      simp
    · simp [h, Ne.symm h]

theorem lookup_parseQuery (pairs : List (String × String)) (k : String) :
    lookupValues (parseQuery pairs) k = multiGet pairs k := by
  have h := lookup_parseQuery_go pairs [] k
  simpa [parseQuery, lookupValues] using h

theorem nodup_parseQuery_go (pairs : List (String × String)) (acc : Values)
    (h : (acc.map Prod.fst).Nodup) :
    (((pairs.foldl (fun a p => addValue a p.1 p.2) acc).map Prod.fst)).Nodup := by
  induction pairs generalizing acc with
  | nil => simpa using h
  | cons hd rest ih =>
    obtain ⟨k0, v⟩ := hd
    simp only [List.foldl_cons]
    exact ih _ (nodup_addValue acc k0 v h)

theorem nodup_parseQuery (pairs : List (String × String)) :
    ((parseQuery pairs).map Prod.fst).Nodup :=
  nodup_parseQuery_go pairs [] (by simp)

theorem getParam_valuesToParams_go (values : Values) (m : Params) (k : String)
    (h : (values.map Prod.fst).Nodup) :
    getParam (values.foldl lastValueStep m) k =
      (match (lookupValues values k).getLast? with
        | some v => some (Value.str v)
        | none => getParam m k) := by
  induction values generalizing m with
  | nil => simp [lookupValues]
  | cons hd rest ih =>
    obtain ⟨k0, vs⟩ := hd
    rw [List.map_cons, List.nodup_cons] at h
    obtain ⟨hk0, hrest⟩ := h
    simp only [List.foldl_cons]
    rw [ih _ hrest]
    by_cases hk : k0 = k
    · subst hk
      rw [lookup_not_mem rest k0 hk0]
      simp only [lookupValues, if_pos rfl, List.getLast?_nil]
      cases hvs : vs.getLast? with
      | none => simp [lastValueStep, hvs]
      | some v => simp [lastValueStep, hvs, getParam_set_self]
    · have hl : lookupValues ((k0, vs) :: rest) k = lookupValues rest k := by
        simp [lookupValues, hk]
      rw [hl]
      cases hu : (lookupValues rest k).getLast? with
      | none =>
        simp only []
        cases hvs : vs.getLast? with
        | none => simp [lastValueStep, hvs]
        | some v =>
          simp [lastValueStep, hvs,
            getParam_set_other m k0 k (Value.str v) (Ne.symm hk)]
      | some v => simp

theorem getParam_valuesToParams (values : Values) (k : String)
    (h : (values.map Prod.fst).Nodup) :
    getParam (valuesToParams values) k =
      ((lookupValues values k).getLast?).map Value.str := by
  rw [valuesToParams, getParam_valuesToParams_go values [] k h]
  cases (lookupValues values k).getLast? <;> simp [getParam]

/-- Counterexample for C3: a form-encoded POST whose body sets `a=b`
while the query string sets `a=q` decodes to the QUERY value `q`, not
the body value `b` — `r.Form` holds body values followed by query
values and the decoder keeps the LAST value per key, so query values
override same-named body values. -/
theorem form_body_override_counterexample :
    decodeParams reqFormOverride "echo" = .ok [("a", Value.str "q")] ∧
    getParam [("a", Value.str "q")] "a" = some (Value.str "q") ∧
    getParam [("a", Value.str "q")] "a" ≠ some (Value.str "b") := by
  exact ⟨rfl, by decide, by decide⟩

/-- **C3 (amended).** For every form-encoded POST whose body parses,
the decoded map holds, for each key, the last value of the
concatenation of the body values of that key followed by its query values:
the last query value whenever the key occurs in the query at all
(query values override same-named form-body values), and otherwise the
last body value — last value wins per key within each source. -/
theorem form_decode_last_query_wins (r : Request) (path : String)
    (post : List (String × String))
    (hct : r.contentType = "application/x-www-form-urlencoded")
    (hfb : r.formBody = .ok post) :
    decodeParams r path =
      .ok (valuesToParams
        (copyValues (parseQuery post) (parseQuery r.queryPairs)))
    ∧ (∀ k, getParam (valuesToParams
          (copyValues (parseQuery post) (parseQuery r.queryPairs))) k =
        ((multiGet post k ++ multiGet r.queryPairs k).getLast?).map Value.str)
    ∧ (∀ k, multiGet r.queryPairs k ≠ [] →
        getParam (valuesToParams
          (copyValues (parseQuery post) (parseQuery r.queryPairs))) k =
        ((multiGet r.queryPairs k).getLast?).map Value.str) := by
  have hchar : ∀ k, getParam (valuesToParams
      (copyValues (parseQuery post) (parseQuery r.queryPairs))) k =
      ((multiGet post k ++ multiGet r.queryPairs k).getLast?).map Value.str := by
    intro k
    rw [getParam_valuesToParams _ _
      (nodup_copyValues _ _ (nodup_parseQuery post))]
    rw [lookup_copyValues _ _ _ (nodup_parseQuery r.queryPairs)]
    rw [lookup_parseQuery, lookup_parseQuery]
  refine ⟨?_, hchar, ?_⟩
  · unfold decodeParams
    rw [hct, hfb]
    rfl
  · intro k hq
    rw [hchar k, List.getLast?_append_of_ne_nil _ hq]

/-- Witness for C3 (amended): at the request of the counterexample, key `a`
has body values `[b]` and query values `[q]`, and the decoded value is
the last of `[b, q]`, namely `q`. -/
theorem form_decode_last_query_wins_witness :
    getParam (valuesToParams
        (copyValues (parseQuery [("a", "b")]) (parseQuery [("a", "q")]))) "a" =
      ((multiGet [("a", "b")] "a" ++ multiGet [("a", "q")] "a").getLast?).map
        Value.str :=
  (form_decode_last_query_wins reqFormOverride "echo" [("a", "b")]
    rfl rfl).2.1 "a"

end RCServer
